import Mathlib

/-!
Verification of the gfx library (gfx.h / gfx.cpp): a shallow embedding of
the color model, the arithmetic tables built by `GfxInit`, the blender and
sampler strategies, the image save/load/stream file format, and the two
`Image::Blit` algorithms (in-memory source and streamed file source).

Modelling conventions, used throughout:

* Machine integers (`Sint32`, `Uint8`) are modelled as `Int`/`Nat`; all
  values handled by the theorems below stay far inside the 32-bit range,
  and wherever the C++ code could overflow or index out of bounds (which
  is undefined behaviour) the embedding returns `none`.
* IEEE-754 single precision (`float`) is modelled exactly by the type
  `F32` below: a dyadic number `m * 2^e` whose mantissa is kept to 24
  significant bits by round-to-nearest, ties-to-even, plus the special
  values `inf`/`nan` with the usual IEEE propagation rules.  Exponents are
  unbounded (overflow to infinity and gradual underflow are not modelled;
  every float arising in the developments below is far inside the normal
  range) and zero is unsigned.  Division by zero follows IEEE
  (`x/0 = ±inf` for `x ≠ 0`, `0/0 = nan`), which is what the compiled
  code does on all supported platforms.
* Casting a `float` to a signed integer truncates toward zero and is
  undefined (here: `none`) for `nan`, infinities, and values whose
  truncation does not fit the target type.
* The platform is fixed to little-endian Linux (the `__LINUX__`,
  `SDL_LIL_ENDIAN` configuration of gfx.h), so a `Color32` lies in memory
  as the `BGRA32` byte sequence `[blue, green, red, alpha]` and 32-bit
  integers are serialized little-endian, two's complement.
-/

/-!
The first block below is performance infrastructure for kernel
computation: continuation-style forcing of intermediate values and
`casesOn`-based integer primitives (compiled pattern-matching auxiliaries
and the `Decidable` instances of `<`/`≤` reduce far more slowly in the
kernel than raw recursors and `Nat`'s built-in operations).  Each
primitive is proved equal to the standard operation it replaces.
-/

/-- Force a natural number to an evaluated literal before passing it to
the continuation.  Kernel reduction is call-by-name: binding an expensive
subterm this way evaluates it once instead of once per occurrence. -/
def forceN {α : Sort u} (n : Nat) (k : Nat → α) : α :=
  Nat.casesOn n (k 0) (fun m => k (m+1))

/-- Force an integer to a fully evaluated constructor-of-literal before
passing it to the continuation (same purpose as `forceN`). -/
def forceI {α : Type u} (a : Int) (k : Int → α) : α :=
  Int.casesOn a
    (fun n => forceN n fun m => k (.ofNat m))
    (fun n => forceN n fun m => k (.negSucc m))

/-- Sign-aware difference of two naturals (the standard `Int.subNatNat`,
written with `Nat` primitives). -/
def intSubNN (a b : Nat) : Int :=
  cond (b.ble a) (.ofNat (a - b)) (.negSucc (b - a - 1))

/-- Addition of integers through `Int.casesOn` and `Nat` primitives. -/
def intAdd (a b : Int) : Int :=
  Int.casesOn a
    (fun m => Int.casesOn b (fun n => .ofNat (m + n)) (fun n => intSubNN m (n+1)))
    (fun m => Int.casesOn b (fun n => intSubNN n (m+1)) (fun n => .negSucc (m + n + 1)))

/-- Negation of an integer through `Int.casesOn`. -/
def intNeg (a : Int) : Int :=
  Int.casesOn a (fun m => Nat.casesOn m (.ofNat 0) (fun k => .negSucc k)) (fun m => .ofNat (m+1))

/-- Subtraction of integers through the primitives above. -/
def intSub (a b : Int) : Int := intAdd a (intNeg b)

/-- Multiplication of integers through `Int.casesOn` and `Nat`
primitives. -/
def intMul (a b : Int) : Int :=
  Int.casesOn a
    (fun m => Int.casesOn b
      (fun n => .ofNat (m * n))
      (fun n => intNeg (.ofNat (m * (n+1)))))
    (fun m => Int.casesOn b
      (fun n => intNeg (.ofNat ((m+1) * n)))
      (fun n => .ofNat ((m+1) * (n+1))))

/-- `true` iff the integer is negative (constructor test). -/
def intIsNeg (a : Int) : Bool :=
  Int.casesOn a (fun _ => false) (fun _ => true)

/-- `true` iff the integer is zero (constructor test). -/
def intIsZero (a : Int) : Bool :=
  Int.casesOn a (fun m => Nat.casesOn m true (fun _ => false)) (fun _ => false)

/-- Boolean `≤` on integers (constructor test plus `Nat.ble`). -/
def intBle (a b : Int) : Bool :=
  Int.casesOn a
    (fun m => Int.casesOn b (fun n => m.ble n) (fun _ => false))
    (fun m => Int.casesOn b (fun _ => true) (fun n => n.ble m))

/-- Boolean `<` on integers (constructor test plus `Nat.blt`). -/
def intBlt (a b : Int) : Bool :=
  Int.casesOn a
    (fun m => Int.casesOn b (fun n => m.blt n) (fun _ => false))
    (fun m => Int.casesOn b (fun _ => true) (fun n => n.blt m))

/-- Absolute value of an integer as a natural (constructor test). -/
def intAbs (a : Int) : Nat :=
  Int.casesOn a (fun m => m) (fun m => m+1)

/-- `Int.toNat` through `Int.casesOn`. -/
def intToNat (a : Int) : Nat :=
  Int.casesOn a (fun m => m) (fun _ => 0)

/-- Bit length, dispatch leaf for results in `[0, 16]`. -/
def bitlenT0 (n : Nat) : Nat :=
  (cond (n.blt 256) (cond (n.blt 16) (cond (n.blt 4) (cond (n.blt 2) (cond (n.blt 1) 0 1) 2) (cond
    (n.blt 8) 3 4)) (cond (n.blt 64) (cond (n.blt 32) 5 6) (cond (n.blt 128) 7 8))) (cond (n.blt
    4096) (cond (n.blt 1024) (cond (n.blt 512) 9 10) (cond (n.blt 2048) 11 12)) (cond (n.blt
    16384) (cond (n.blt 8192) 13 14) (cond (n.blt 32768) 15 16))))

/-- Bit length, dispatch leaf for results in `[17, 32]`. -/
def bitlenT1 (n : Nat) : Nat :=
  (cond (n.blt 16777216) (cond (n.blt 1048576) (cond (n.blt 262144) (cond (n.blt 131072) 17 18)
    (cond (n.blt 524288) 19 20)) (cond (n.blt 4194304) (cond (n.blt 2097152) 21 22) (cond (n.blt
    8388608) 23 24))) (cond (n.blt 268435456) (cond (n.blt 67108864) (cond (n.blt 33554432) 25
    26) (cond (n.blt 134217728) 27 28)) (cond (n.blt 1073741824) (cond (n.blt 536870912) 29 30)
    (cond (n.blt 2147483648) 31 32))))

/-- Bit length, dispatch leaf for results in `[33, 48]`. -/
def bitlenT2 (n : Nat) : Nat :=
  (cond (n.blt 1099511627776) (cond (n.blt 68719476736) (cond (n.blt 17179869184) (cond (n.blt
    8589934592) 33 34) (cond (n.blt 34359738368) 35 36)) (cond (n.blt 274877906944) (cond (n.blt
    137438953472) 37 38) (cond (n.blt 549755813888) 39 40))) (cond (n.blt 17592186044416) (cond
    (n.blt 4398046511104) (cond (n.blt 2199023255552) 41 42) (cond (n.blt 8796093022208) 43 44))
    (cond (n.blt 70368744177664) (cond (n.blt 35184372088832) 45 46) (cond (n.blt
    140737488355328) 47 48))))

/-- Bit length, dispatch leaf for results in `[49, 64]`. -/
def bitlenT3 (n : Nat) : Nat :=
  (cond (n.blt 72057594037927936) (cond (n.blt 4503599627370496) (cond (n.blt 1125899906842624)
    (cond (n.blt 562949953421312) 49 50) (cond (n.blt 2251799813685248) 51 52)) (cond (n.blt
    18014398509481984) (cond (n.blt 9007199254740992) 53 54) (cond (n.blt 36028797018963968) 55
    56))) (cond (n.blt 1152921504606846976) (cond (n.blt 288230376151711744) (cond (n.blt
    144115188075855872) 57 58) (cond (n.blt 576460752303423488) 59 60)) (cond (n.blt
    4611686018427387904) (cond (n.blt 2305843009213693952) 61 62) (cond (n.blt
    9223372036854775808) 63 64))))

/-- Number of binary digits of `n < 2^64` (`0` for `n = 0`): dispatch to
one of four comparison subtrees. -/
def bitlen64 (n : Nat) : Nat :=
  cond (n.blt 4294967296)
    (cond (n.blt 65536) (bitlenT0 n) (bitlenT1 n))
    (cond (n.blt 281474976710656) (bitlenT2 n) (bitlenT3 n))

/-- Number of binary digits of `n` (`0` for `n = 0`), correct for every
`n < 2^256`; no quantity in this development comes anywhere near that
bound. -/
def bitlen (n : Nat) : Nat :=
  cond (n.blt 18446744073709551616) (bitlen64 n)
    (cond ((n >>> 64).blt 18446744073709551616) (64 + bitlen64 (n >>> 64))
      (cond ((n >>> 128).blt 18446744073709551616) (128 + bitlen64 (n >>> 128))
        (192 + bitlen64 (n >>> 192))))

/-- Round the positive integer `a` (plus an infinitesimally small extra
amount recorded by `sticky`) to 24 significant bits, round to nearest,
ties to even.  The continuation receives the rounded mantissa and the
number of bits dropped, so the value represented is
`mantissa * 2^dropped` (continuation style keeps kernel reduction cheap;
no tuple is built). -/
def rnd24 {α : Type u} (a : Nat) (sticky : Bool) (k : Nat → Nat → α) : α :=
  forceN (bitlen a) fun L =>
  cond (L.ble 24) (k a 0)
    (forceN (a >>> (L - 24)) fun n0 =>
     forceN (a % (1 <<< (L - 24))) fun rem =>
     forceN (1 <<< (L - 24 - 1)) fun half =>
     k (cond (half.blt rem || (rem.beq half && (sticky || (n0 % 2).beq 1))) (n0 + 1) n0)
       (L - 24))

/-- Correctly rounded single-precision quotient of two positive integers:
the continuation receives `(m, e)` with `m * 2^e` the rounding of `a / b`
to 24 significant bits (nearest, ties to even).  The quotient is first
computed with `26 + bitlen b` extra bits so that it has more than 24
significant bits, then rounded with a sticky bit recording the discarded
remainder. -/
def flDivNat {α : Type u} (a b : Nat) (k : Nat → Int → α) : α :=
  forceN (26 + bitlen b) fun s =>
  forceN (a <<< s) fun t =>
  forceN (t / b) fun q =>
  forceN (t % b) fun r =>
  rnd24 q (!(r.beq 0)) fun m sh =>
  k m (intSub (.ofNat sh) (.ofNat s))

/-- IEEE-754 single precision, modelled exactly on the normal range:
`fin m e` is the dyadic number `m * 2^e` (mantissa at most 24 significant
bits after every operation, exponent unbounded, zero unsigned), plus
infinities and `nan`. -/
inductive F32 where
  | nan : F32
  | inf : Bool → F32
  | fin : Int → Int → F32
deriving DecidableEq

/-- Multiply an integer mantissa by `2^k` (exact). -/
def ishl (m : Int) (k : Nat) : Int := intMul m (.ofNat (1 <<< k))

/-- Round the exact dyadic value `m * 2^e` to 24 significant bits
(nearest, ties to even). -/
def F32.roundF (m e : Int) : F32 :=
  forceN (intAbs m) fun a =>
  cond (a.beq 0) (.fin 0 0)
    (rnd24 a false fun n sh =>
     .fin (cond (intIsNeg m) (intNeg (.ofNat n)) (.ofNat n)) (intAdd e (.ofNat sh)))

/-- The C cast `(float)n` of an integer. -/
def F32.ofInt (n : Int) : F32 := F32.roundF n 0

/-- IEEE single-precision multiplication. -/
def F32.mul (x y : F32) : F32 :=
  F32.casesOn x
    nan
    (fun s1 => F32.casesOn y nan (fun s2 => inf (s1 != s2))
      (fun m _ => cond (intIsZero m) nan (inf (s1 != intIsNeg m))))
    (fun m1 e1 => F32.casesOn y nan
      (fun s2 => cond (intIsZero m1) nan (inf (intIsNeg m1 != s2)))
      (fun m2 e2 => roundF (intMul m1 m2) (intAdd e1 e2)))

/-- IEEE single-precision addition (exact sum of the two dyadics, then
one rounding — which is exactly how a correctly rounded addition
behaves). -/
def F32.add (x y : F32) : F32 :=
  F32.casesOn x
    nan
    (fun s1 => F32.casesOn y nan (fun s2 => cond (s1 == s2) (inf s1) nan) (fun _ _ => inf s1))
    (fun m1 e1 => F32.casesOn y nan (fun s2 => inf s2)
      (fun m2 e2 =>
        cond (intBle e1 e2)
          (roundF (intAdd m1 (ishl m2 (intToNat (intSub e2 e1)))) e1)
          (roundF (intAdd (ishl m1 (intToNat (intSub e1 e2))) m2) e2)))

/-- IEEE negation. -/
def F32.neg (x : F32) : F32 :=
  F32.casesOn x nan (fun s => inf (!s)) (fun m e => fin (intNeg m) e)

/-- IEEE single-precision subtraction. -/
def F32.sub (a b : F32) : F32 := a.add b.neg

/-- IEEE single-precision division (zero divisor gives `±inf`, `0/0`
gives `nan`). -/
def F32.div (x y : F32) : F32 :=
  F32.casesOn x
    nan
    (fun s1 => F32.casesOn y nan (fun _ => nan) (fun m _ => inf (s1 != intIsNeg m)))
    (fun m1 e1 => F32.casesOn y nan (fun _ => fin 0 0)
      (fun m2 e2 =>
        cond (intIsZero m2) (cond (intIsZero m1) nan (inf (intIsNeg m1)))
          (cond (intIsZero m1) (fin 0 0)
            (flDivNat (intAbs m1) (intAbs m2) fun q e =>
             fin (cond (intIsNeg m1 != intIsNeg m2) (intNeg (.ofNat q)) (.ofNat q))
                 (intAdd (intSub e1 e2) e)))))

/-- The C cast of a `float` to a signed integer: truncation toward zero;
undefined (`none`) on `nan` and infinities. -/
def F32.toIntTrunc (x : F32) : Option Int :=
  F32.casesOn x none (fun _ => none)
    (fun m e =>
      some (cond (intIsNeg e)
             (cond (intIsNeg m) (intNeg (.ofNat (intAbs m >>> intToNat (intNeg e))))
               (.ofNat (intAbs m >>> intToNat (intNeg e))))
             (ishl m (intToNat e))))

/-- The C cast `(Sint32)x` of a `float`: additionally undefined when the
truncated value does not fit in 32 signed bits. -/
def F32.toInt32 (x : F32) : Option Int :=
  Option.casesOn x.toIntTrunc none fun t =>
    cond (intBle (.negSucc 2147483647) t && intBlt t (.ofNat 2147483648)) (some t) none

/-!
## The arithmetic tables built by `GfxInit` (gfx.cpp lines 37–71)

`tableAdd[i][j]`: the first loop stores `n = i + j` for `j = 0,…` while
`n ≤ 255`, the second fills the rest of the row with 255.
`tableSub[i][j]`: stores `n = i - j` while `n ≥ 0`, then fills with 0.
`tableMul[i][j]` is `(Uint8)(i * (j / 255.0f))` computed in single
precision (the float loop counters run over exact small integers).
-/

/-- `tableAdd[i][j]` as built by the two loops of `GfxInit`. -/
def tableAdd (i j : Nat) : Nat := if i + j ≤ 255 then i + j else 255

/-- `tableSub[i][j]` as built by the two loops of `GfxInit`. -/
def tableSub (i j : Nat) : Nat := if j ≤ i then i - j else 0

/-- The float computation `i * (j / 255.0f)` of the `tableMul` loop,
truncated to an integer as by the `(Uint8)` cast; `none` would mark an
undefined cast (never hit for byte inputs, as proved below). -/
def tableMulF (i j : Nat) : Option Int :=
  (F32.mul (F32.ofInt (.ofNat i)) (F32.div (F32.ofInt (.ofNat j)) (F32.ofInt 255))).toIntTrunc

/-- `tableMul[i][j]` as built by `GfxInit` (the `getD` is never the
default: `tableMulF` is proved total on bytes below). -/
def tableMul (i j : Nat) : Nat := ((tableMulF i j).getD 0).toNat

/-!
## Bounded boolean quantifier

`allB f n` checks `f` on every index below `n`; it is written with a bare
`Nat.rec` so that the kernel can evaluate it iteratively.  It drives the
exhaustive verification of the 256 x 256 multiplication table.
-/

/-- `allRange f lo n` checks `f` on `lo, lo+1, ..., lo+n-1`
(kernel-friendly form). -/
def allRange (f : Nat → Bool) (lo : Nat) (n : Nat) : Bool :=
  Nat.rec true (fun k ih => f (lo + k) && ih) n

/-- Boolean check of row `j` of the multiplication table: the rounded
quotient `j/255.0f` is computed once, then every product
`(Uint8)(i * (j/255.0f))` for `i < 256` is compared against
`⌊i*j/255⌋`. -/
def mulRowChk (j : Nat) : Bool :=
  F32.casesOn (F32.div (F32.ofInt (.ofNat j)) (F32.ofInt 255)) false (fun _ => false)
    (fun m e => allRange (fun i =>
      Option.casesOn ((F32.mul (F32.ofInt (.ofNat i)) (F32.fin m e)).toIntTrunc) false fun t =>
        Int.casesOn t (fun n => n.beq (i * j / 255)) (fun _ => false)) 0 256)

/-!
## Color model

`Color32` (gfx.h 67–99) is a union of a packed 32-bit value with four
8-bit channels; every verified operation works on the channels, so the
embedding carries the four channels directly.  The platform fixes the
channel memory order to `BGRA32` (blue, green, red, alpha); that order
only matters for the byte-level file format below.
-/

/-- The four channels of a `Color32`. -/
structure Color32 where
  red : Nat
  green : Nat
  blue : Nat
  alpha : Nat
deriving DecidableEq

/-- Channels of a machine `Color32` are bytes. -/
def wfColor (c : Color32) : Prop :=
  c.red < 256 ∧ c.green < 256 ∧ c.blue < 256 ∧ c.alpha < 256

/-- `operator+=` / `operator+` (gfx.cpp 112–119, 164): every channel,
alpha included, through `tableAdd`. -/
def c32Add (l r : Color32) : Color32 :=
  ⟨tableAdd l.red r.red, tableAdd l.green r.green,
   tableAdd l.blue r.blue, tableAdd l.alpha r.alpha⟩

/-- `operator-=` / `operator-` (gfx.cpp 120–127, 165). -/
def c32Sub (l r : Color32) : Color32 :=
  ⟨tableSub l.red r.red, tableSub l.green r.green,
   tableSub l.blue r.blue, tableSub l.alpha r.alpha⟩

/-- `operator*=` / `operator*` (gfx.cpp 128–135, 166). -/
def c32Mul (l r : Color32) : Color32 :=
  ⟨tableMul l.red r.red, tableMul l.green r.green,
   tableMul l.blue r.blue, tableMul l.alpha r.alpha⟩

/-- `operator==` (gfx.cpp 152–159): compares red, green and blue only —
the comment in the source says "does not test alpha". -/
def c32Eq (l r : Color32) : Bool :=
  (l.red == r.red) && (l.green == r.green) && (l.blue == r.blue)

/-!
## Blender strategies (gfx.h 119–191)
-/

/-- The `Assign` blender (gfx.h 129–134): returns the source color. -/
def assignBlend (_dst src : Color32) : Color32 := src

/-- The `ColorKey` blender (gfx.h 156–164):
`return pSrc==key ? pDst : pSrc;`. -/
def colorKeyBlend (key dst src : Color32) : Color32 :=
  cond (c32Eq src key) dst src

/-- The value of the float literal `0.3f`: the correctly rounded
single-precision value of 3/10, which is what `F32.div` computes. -/
def f0_3 : F32 := F32.div (F32.ofInt 3) (F32.ofInt 10)

/-- The value of the float literal `0.59f` (correctly rounded 59/100). -/
def f0_59 : F32 := F32.div (F32.ofInt 59) (F32.ofInt 100)

/-- The value of the float literal `0.11f` (correctly rounded 11/100). -/
def f0_11 : F32 := F32.div (F32.ofInt 11) (F32.ofInt 100)

/-- The luma computation of the `Grayscale` blender (gfx.h 173–177):
`(Uint8)((float)red*0.3f + (float)green*0.59f + (float)blue*0.11f)`,
left-associated single-precision arithmetic, truncated by the `(Uint8)`
cast (the `getD 0` default is unreachable: the sum of byte channels
weighted by `0.3f/0.59f/0.11f` stays below 255.0001). -/
def grayLuma (src : Color32) : Nat :=
  ((((F32.mul (F32.ofInt (.ofNat src.red)) f0_3).add
     (F32.mul (F32.ofInt (.ofNat src.green)) f0_59)).add
     (F32.mul (F32.ofInt (.ofNat src.blue)) f0_11)).toIntTrunc.getD 0).toNat

/-- The `Grayscale` blender (gfx.h 170–180): returns
`Color32(Gray, Gray, Gray)` — the three-argument constructor, whose
fourth parameter defaults to `UCHAR_MAX` (gfx.h 98), so the result's
alpha is always 255. -/
def grayscaleBlend (_dst src : Color32) : Color32 :=
  ⟨grayLuma src, grayLuma src, grayLuma src, 255⟩

/-!
## The byte-to-float table of `GfxInit` (gfx.cpp 68–71)
-/

/-- `u8chan_to_fchan[i] = fBYTE_MAX/(float)i` (gfx.cpp 70): 255 divided
by the channel value.  At `i = 0` the float division by zero produces
`+inf` (the IEEE result on every supported platform). -/
def u8chan_to_fchan (i : Nat) : F32 :=
  F32.div (F32.ofInt 255) (F32.ofInt (.ofNat i))

/-- Modelled from the spec: the mapping the spec calls intended,
`channel/255`, built only for comparison with the code's reciprocal
construction. -/
def intended_fchan (i : Nat) : F32 :=
  F32.div (F32.ofInt (.ofNat i)) (F32.ofInt 255)

/-- Boolean check that the code's table entry differs from the intended
`i/255` entry (used for the exhaustive check over `i ∈ [1,254]`). -/
def u8chanDiffChk (i : Nat) : Bool :=
  !(u8chan_to_fchan i == intended_fchan i)

/-!
## Image, native file format, and stream handles

`Image` (gfx.h 236–331) owns a `Color32` buffer of `width*height` pixels
(row major); a null buffer is the "bad" state.  The native file format
(`Image::Save`, gfx.cpp 337–364) is: a 4-byte `Sint32` type-size tag
(always `sizeof(Color32) = 4`), 4-byte width, 4-byte height, then
`width*height` raw 4-byte pixels.  On the fixed platform all integers
are little-endian two's complement and a pixel lies in memory as
`[blue, green, red, alpha]`.  Files are byte lists; a byte is a `Nat`
below 256.
-/

/-- The `Image` class: dimensions and an optional pixel buffer
(`none` models the null `pixels` pointer). -/
structure Image where
  width : Int
  height : Int
  pixels : Option (List Color32)
deriving DecidableEq

/-- `Image::IsBad` (gfx.h 266): the buffer pointer is null. -/
def Image.IsBad (img : Image) : Bool := img.pixels.isNone

/-- `Image::IsGood` (gfx.h 265). -/
def Image.IsGood (img : Image) : Bool := img.pixels.isSome

/-- Well-formed freshly `Create`d image: dimensions accepted by
`Image::Create` (gfx.cpp 243), buffer of exactly `width*height` byte
channels. -/
def wfImage (img : Image) : Prop :=
  1 ≤ img.width ∧ img.width ≤ 65535 ∧ 1 ≤ img.height ∧ img.height ≤ 65535 ∧
  ∃ l, img.pixels = some l ∧ l.length = img.width.toNat * img.height.toNat ∧
    ∀ c ∈ l, wfColor c

/-- Serialize a 32-bit signed integer little-endian, two's complement
(the raw `fout.write((char*)&n, 4)` of `Image::Save`). -/
def int32ToBytes (n : Int) : List Nat :=
  [(n % 4294967296).toNat % 256,
   (n % 4294967296).toNat / 256 % 256,
   (n % 4294967296).toNat / 65536 % 256,
   (n % 4294967296).toNat / 16777216 % 256]

/-- Read back a 32-bit signed integer from four bytes (little-endian,
two's complement), as `fin.read((char*)&n, 4)` does. -/
def bytesToInt32 (b0 b1 b2 b3 : Nat) : Int :=
  let v := b0 + 256 * b1 + 65536 * b2 + 16777216 * b3
  if v < 2147483648 then (v : Int) else (v : Int) - 4294967296

/-- Read the 32-bit integer at the head of a byte list (missing bytes of
a short file leave the destination bytes unchanged; the theorems below
never read past the end). -/
def readI32 (bs : List Nat) : Int :=
  bytesToInt32 (bs.getD 0 0) (bs.getD 1 0) (bs.getD 2 0) (bs.getD 3 0)

/-- Memory bytes of one `Color32` in the platform's `BGRA32` order. -/
def pixToBytes (c : Color32) : List Nat :=
  [c.blue, c.green, c.red, c.alpha]

/-- Raw bytes of a pixel buffer, as written by
`fout.write((char*)pixels, width*height*4)`. -/
def pixelsToBytes : List Color32 → List Nat
  | [] => []
  | c :: rest => pixToBytes c ++ pixelsToBytes rest

/-- Decode pixel number `k` from a raw pixel byte region (bytes past the
end of a short file keep the zero bytes that `Create`'s
default-constructed buffer holds). -/
def loadPixelAt (ps : List Nat) (k : Nat) : Color32 :=
  ⟨ps.getD (4*k+2) 0, ps.getD (4*k+1) 0, ps.getD (4*k) 0, ps.getD (4*k+3) 0⟩

/-- `Image::Save` (gfx.cpp 337–364) on an already-open file: `none` for
the `width*height == 0 || pixels == NULL` early-false return, or when
the buffer does not hold `width*height` pixels (the raw write would then
read past the allocation — undefined).  Otherwise the bytes written:
type-size tag 4, width, height, raw pixels. -/
def saveBytes (img : Image) : Option (List Nat) :=
  if img.width * img.height = 0 then none
  else
    match img.pixels with
    | none => none
    | some l =>
      if l.length = img.width.toNat * img.height.toNat then
        some (int32ToBytes 4 ++ int32ToBytes img.width ++ int32ToBytes img.height ++
              pixelsToBytes l)
      else none

/-- `Image::Load` (gfx.cpp 297–331) on an already-open file: read the
type-size tag (must equal 4, else "Format not recognized" and failure),
then width and height, `Create` them (failure if out of `[1, 65535]`),
then read the pixel bytes (a short pixel region leaves the zero-filled
tail that `Create` allocated).  `none` is every `return false` path; a
header shorter than 12 bytes leaves partially-written fields and is also
modelled as `none`. -/
def imgLoad (bs : List Nat) : Option Image :=
  if bs.length < 12 then none
  else
    let ts := readI32 bs
    if ts = 4 then
      let w := readI32 (bs.drop 4)
      let h := readI32 (bs.drop 8)
      if 0 < w ∧ w ≤ 65535 ∧ 0 < h ∧ h ≤ 65535 then
        some ⟨w, h, some ((List.range (w.toNat * h.toNat)).map (loadPixelAt (bs.drop 12)))⟩
      else none
    else none

/-- `Image::Stream` (gfx.h 280–297): header metadata only. -/
structure ImageStream where
  width : Int
  height : Int
  dataStart : Int
deriving DecidableEq

/-- `Image::Stream::Load` (gfx.cpp 504–519) on an already-open file:
reads `width` from bytes 0–3 and `height` from bytes 4–7 — it never
reads the type-size tag — and sets
`dataStart = sizeof(width) + sizeof(height) = 8`.  A file shorter than
8 bytes leaves partially-written fields (`none`). -/
def streamLoad (bs : List Nat) : Option ImageStream :=
  if bs.length < 8 then none
  else some ⟨readI32 bs, readI32 (bs.drop 4), 8⟩

/-- Concrete 2-pixel-wide, 1-pixel-high image used by the C1
counterexample evaluation. -/
def c1Img : Image := ⟨2, 1, some [⟨10, 20, 30, 40⟩, ⟨50, 60, 70, 80⟩]⟩

/-!
## In-memory `Image::Blit` (gfx.h 450-526)

The blit is modelled as a total function returning
`Option (Option String × Image)`: the outer `none` marks an execution
with undefined behaviour (an out-of-bounds pixel access, or an
undefined float→`Sint32` cast inside the sampler), otherwise the pair
holds the `SDL_SetError` message, if one was set, and the final
destination image.  Scalar parameters are mathematical integers; the
theorems below use them in ranges where the `Sint32` arithmetic of the
source cannot overflow.
-/

/-- Read flat pixel-buffer element `i` (the access `dpix[x+pDx1]` /
`pixels[width*iy+ix]`); `none` when the access leaves the
allocation. -/
def imgGet (img : Image) (i : Int) : Option Color32 :=
  match img.pixels with
  | none => none
  | some l =>
    if 0 ≤ i ∧ i < (l.length : Int) then some (l.getD i.toNat ⟨0, 0, 0, 0⟩) else none

/-- Write flat pixel-buffer element `i`; `none` outside the
allocation. -/
def imgSet (img : Image) (i : Int) (c : Color32) : Option Image :=
  match img.pixels with
  | none => none
  | some l =>
    if 0 ≤ i ∧ i < (l.length : Int) then
      some ⟨img.width, img.height, some (l.set i.toNat c)⟩
    else none

/-- `Nearest::operator()` (gfx.cpp 180-182):
`pImage[(Sint32)((GetHeight()-1)*pV)][(Sint32)((GetWidth()-1)*pU)]` —
two float→`Sint32` casts (undefined on `nan`/overflow), then the pixel
access `pixels + width*iy + ix` (undefined outside the buffer). -/
def sampleNearest (img : Image) (u v : F32) : Option Color32 :=
  match (F32.mul (F32.ofInt (intSub img.height 1)) v).toInt32 with
  | none => none
  | some iy =>
    match (F32.mul (F32.ofInt (intSub img.width 1)) u).toInt32 with
    | none => none
    | some ix => imgGet img (intAdd (intMul img.width iy) ix)

/-- The inner `for x` loop of the image blit (gfx.h 519-523): `n`
iterations remain, `i` is the flat destination index of the next
write, `u` the current horizontal sample coordinate. -/
def blitCols (src : Image) (blend : Color32 → Color32 → Color32)
    (sample : Image → F32 → F32 → Option Color32) (du v : F32) :
    Nat → Int → F32 → Image → Option Image
  | 0, _, _, img => some img
  | n+1, i, u, img =>
    match imgGet img i, sample src u v with
    | some d, some s =>
      match imgSet img i (blend d s) with
      | some img2 => blitCols src blend sample du v n (intAdd i 1) (F32.add u du) img2
      | none => none
    | _, _ => none

/-- The outer scanline loop of the image blit (gfx.h 516-525): `base`
is the flat index of the first written pixel of the current row
(`dpix` + `pDx1`), advancing by `DST_WIDTH` per row. -/
def blitRows (src : Image) (blend : Color32 → Color32 → Color32)
    (sample : Image → F32 → F32 → Option Color32) (du dv u1 : F32)
    (W : Int) (maxx : Nat) :
    Nat → Int → F32 → Image → Option Image
  | 0, _, _, img => some img
  | n+1, base, v, img =>
    match blitCols src blend sample du v maxx base u1 img with
    | some img2 => blitRows src blend sample du dv u1 W maxx n (intAdd base W) (F32.add v dv) img2
    | none => none

/-- The min-border clip `p = 0>p ? 0 : p` (gfx.h 459-460, 540-541,
555-556). -/
def clipMin0 (v : Int) : Int := if 0 > v then 0 else v

/-- The read offset `if (pDx1 < 0) { sx = -pDx1; }` (gfx.h 549-552). -/
def negOfs (v : Int) : Int := if v < 0 then intNeg v else 0

/-- The final (swapped, min-clipped) destination start coordinate of
one axis, from the original endpoints (gfx.h 472-501: the `pDx1`
left in scope after the two rebinding blocks). -/
def normLo (a b : Int) : Int :=
  if b < a then (if b < 0 then 0 else b) else (if a < 0 then 0 else a)

/-- The (swapped, not yet max-clipped) destination end coordinate of
one axis (gfx.h 472-501: the `pDx2` left in scope). -/
def normHi (a b : Int) : Int := if b < a then a else b

/-- The max-border clip `pDx2 = pDst.GetWidth()<pDx2 ? ... : pDx2`
(gfx.h 504-505). -/
def clipMax (cap v : Int) : Int := if cap < v then cap else v

/-- The starting sample coordinate of one axis after the rebinding
blocks (gfx.h 472-501: the `u1` left in scope): on a swap it becomes
`u2`, and a negative start additionally shifts it by `du` times the clipped
amount. -/
def normU (a b : Int) (u1 u2 du : F32) : F32 :=
  if b < a then (if b < 0 then F32.sub u2 (F32.mul du (F32.ofInt b)) else u2)
  else (if a < 0 then F32.add u1 (F32.mul du (F32.ofInt (intNeg a))) else u1)

/-- `Image::Blit` for an image source (gfx.h 450-526), statement by
statement; `pBlend` and `pSample` are the functor parameters. -/
def blitImage (pDst : Image) (pDx1 pDy1 pDx2 pDy2 : Int) (pSrc : Image)
    (pBlend : Color32 → Color32 → Color32)
    (pSample : Image → F32 → F32 → Option Color32)
    (pSx1 pSy1 pSx2 pSy2 : Int) : Option (Option String × Image) :=
  if pSrc.IsBad || pDst.IsBad then some (some "Blit: Bad source/destination", pDst)
  else
    let sx1 := clipMin0 pSx1
    let sy1 := clipMin0 pSy1
    let sx2 := clipMax pSrc.width pSx2
    let sy2 := clipMax pSrc.height pSy2
    let u1 := F32.div (F32.ofInt sx1) (F32.ofInt (intSub pSrc.width 1))
    let v1 := F32.div (F32.ofInt sy1) (F32.ofInt (intSub pSrc.height 1))
    let u2 := F32.div (F32.ofInt sx2) (F32.ofInt (intSub pSrc.width 1))
    let v2 := F32.div (F32.ofInt sy2) (F32.ofInt (intSub pSrc.height 1))
    let du := F32.div (F32.sub u2 u1) (F32.ofInt (intSub pDx2 pDx1))
    let dv := F32.div (F32.sub v2 v1) (F32.ofInt (intSub pDy2 pDy1))
    let dx1 := normLo pDx1 pDx2
    let dx2 := clipMax pDst.width (normHi pDx1 pDx2)
    let dy1 := normLo pDy1 pDy2
    let dy2 := clipMax pDst.height (normHi pDy1 pDy2)
    if dx2 - dx1 < 0 ∨ dy2 - dy1 < 0 then some (none, pDst)
    else
      match blitRows pSrc pBlend pSample du dv (normU pDx1 pDx2 u1 u2 du)
              pDst.width (dx2 - dx1).toNat (dy2 - dy1).toNat
              (intAdd (intMul pDst.width dy1) dx1) (normU pDy1 pDy2 v1 v2 dv) pDst with
      | none => none
      | some img2 => some (none, img2)

/-- The 2-pixel-wide, 1-pixel-high source of the C3 scenario. -/
def c3Src : Image := ⟨2, 1, some [⟨1, 2, 3, 4⟩, ⟨5, 6, 7, 8⟩]⟩

/-- A good 4x1 destination for the C3 scenario. -/
def c3Dst : Image := ⟨4, 1, some (List.replicate 4 ⟨0, 0, 0, 0⟩)⟩


/-!
## Streamed `Image::Blit` (gfx.h 536-590)

The stream source is its header metadata (`srcW`, `srcH`, `dataStart`)
plus the file contents: `none` models a file that cannot be opened,
`some bytes` an openable file of exactly those bytes.  The `ifstream`
failure state is one `failed` flag: a short `read` sets it (`eofbit|
failbit`), and every later `seekg`/`read` of the loop is then a no-op
(`seekg` does not clear `failbit`).  The result is
`Option (Bool × Image)`: `none` for undefined behaviour (an
out-of-bounds `spix`/`dpix` access, an undefined float cast, or the
`new Color32[negative]` allocation), else the returned `bool` and the
final destination.
-/

/-- Arithmetic right shift by 16 of a (two's-complement) `Sint32`:
`>>16` of gfx.h 581/584, i.e. floor division by `2^16`. -/
def sar16 (a : Int) : Int :=
  Int.casesOn a (fun m => .ofNat (m >>> 16)) (fun m => .negSucc (m >>> 16))

/-- One `seekg`+`read` pair (gfx.h 581-582): no-op once `failed`; a
negative seek position fails; otherwise the first `min n avail` buffer
bytes are replaced from the file at `pos` and a short transfer sets the
failure flag. -/
def streamRow (file : List Nat) (pos : Int) (n : Nat) (buf : List Nat)
    (failed : Bool) : List Nat × Bool :=
  if failed then (buf, true)
  else if pos < 0 then (buf, true)
  else
    let t := min n (file.length - pos.toNat)
    (((file.drop pos.toNat).take t) ++ buf.drop t, decide (t < n))

/-- The inner `for x` loop of the streamed blit (gfx.h 583-585):
`dpix[x+pDx1] = pBlend(dpix[x+pDx1], spix[(SCALEX*(x+sx))>>16])`, with
the `spix` index checked against the `pSx2-pSx1` allocation. -/
def streamCols (blend : Color32 → Color32 → Color32) (SCALEX sx : Int)
    (buf : List Nat) (npix : Nat) (base : Int) :
    Nat → Int → Image → Option Image
  | 0, _, img => some img
  | n+1, x, img =>
    let si := sar16 (intMul SCALEX (intAdd x sx))
    if 0 ≤ si ∧ si < (npix : Int) then
      match imgGet img (intAdd base x) with
      | none => none
      | some d =>
        match imgSet img (intAdd base x) (blend d (loadPixelAt buf si.toNat)) with
        | none => none
        | some img2 => streamCols blend SCALEX sx buf npix base n (intAdd x 1) img2
    else none

/-- The scanline loop of the streamed blit (gfx.h 580-586): per row a
seek to `(((SCALEY*(y+sy))>>16)+pSy1)*SrcByteWidth + SrcXOffset`, a
read of `SrcXByteRead` bytes into `spix`, then the column loop; `base`
is the flat destination index of the row's first written pixel. -/
def streamRows (blend : Color32 → Color32 → Color32) (file : List Nat)
    (SCALEX SCALEY sx sy sy1 : Int) (xread : Nat) (bytew xoff W : Int)
    (npix maxx : Nat) :
    Nat → Int → Int → List Nat → Bool → Image → Option Image
  | 0, _, _, _, _, img => some img
  | n+1, y, base, buf, failed, img =>
    let r := streamRow file
      (intAdd (intMul (intAdd (sar16 (intMul SCALEY (intAdd y sy))) sy1) bytew) xoff)
      xread buf failed
    match streamCols blend SCALEX sx r.1 npix base maxx 0 img with
    | none => none
    | some img2 =>
      streamRows blend file SCALEX SCALEY sx sy sy1 xread bytew xoff W npix maxx
        n (intAdd y 1) (intAdd base W) r.1 r.2 img2

/-- `Image::Blit` for a stream source (gfx.h 536-590), statement by
statement: source clip, the two fixed-point scale factors through
`float` arithmetic and a `(Sint32)` cast, read offsets, destination
clip, the `return true` on a negative writable area (before the
allocation and the open), the zero-initialised `new Color32[pSx2-pSx1]`
row buffer, the `return false` when the file cannot be opened, then the
scanline loop. -/
def blitStream (pDst : Image) (pDx1 pDy1 pDx2 pDy2 : Int)
    (srcW srcH dataStart : Int) (srcFile : Option (List Nat))
    (pBlend : Color32 → Color32 → Color32)
    (pSx1 pSy1 pSx2 pSy2 : Int) : Option (Bool × Image) :=
  let sx1 := clipMin0 pSx1
  let sy1 := clipMin0 pSy1
  let sx2 := clipMax srcW pSx2
  let sy2 := clipMax srcH pSy2
  match (F32.mul (F32.div (F32.ofInt (intSub sx2 sx1)) (F32.ofInt (intSub pDx2 pDx1)))
          (F32.ofInt 65536)).toInt32,
        (F32.mul (F32.div (F32.ofInt (intSub sy2 sy1)) (F32.ofInt (intSub pDy2 pDy1)))
          (F32.ofInt 65536)).toInt32 with
  | some SCALEX, some SCALEY =>
    let sx := negOfs pDx1
    let sy := negOfs pDy1
    let dx1 := clipMin0 pDx1
    let dy1 := clipMin0 pDy1
    let dx2 := clipMax pDst.width pDx2
    let dy2 := clipMax pDst.height pDy2
    if dx2 - dx1 < 0 ∨ dy2 - dy1 < 0 then some (true, pDst)
    else
      if intSub sx2 sx1 < 0 then none
      else
        match srcFile with
        | none => some (false, pDst)
        | some file =>
          match streamRows pBlend file SCALEX SCALEY sx sy sy1
                  (intToNat (intMul (intSub sx2 sx1) 4)) (intMul srcW 4)
                  (intAdd (intMul sx1 4) dataStart) pDst.width
                  (intToNat (intSub sx2 sx1)) (dx2 - dx1).toNat (dy2 - dy1).toNat
                  0 (intAdd (intMul pDst.width dy1) dx1)
                  (List.replicate (4 * intToNat (intSub sx2 sx1)) 0) false pDst with
          | none => none
          | some img2 => some (true, img2)
  | _, _ => none

/-! ## Theorems -/


theorem forceN_eq {α : Sort u} (n : Nat) (k : Nat → α) : forceN n k = k n := by
  cases n <;> rfl

theorem intSubNN_eq (a b : Nat) : intSubNN a b = (a : Int) - (b : Int) := by
  unfold intSubNN
  rcases le_or_lt b a with h | h
  · rw [show b.ble a = true by simpa [Nat.ble_eq] using h]
    simp only [cond_true, Int.ofNat_eq_coe]
    omega
  · rw [show b.ble a = false by rw [← Bool.not_eq_true, Nat.ble_eq]; omega]
    simp only [cond_false, Int.negSucc_eq]
    omega

theorem intAdd_eq (a b : Int) : intAdd a b = a + b := by
  cases a <;> cases b <;>
    simp only [intAdd, intSubNN_eq, Int.ofNat_eq_coe, Int.negSucc_eq] <;> omega

theorem intNeg_eq (a : Int) : intNeg a = -a := by
  cases a with
  | ofNat m =>
    cases m with
    | zero => decide
    | succ k =>
      show Int.negSucc k = -Int.ofNat (k+1)
      simp only [Int.ofNat_eq_coe, Int.negSucc_eq]
      omega
  | negSucc m =>
    show Int.ofNat (m+1) = -Int.negSucc m
    simp only [Int.ofNat_eq_coe, Int.negSucc_eq]
    omega

theorem intSub_eq (a b : Int) : intSub a b = a - b := by
  unfold intSub; rw [intAdd_eq, intNeg_eq]; omega

theorem intMul_eq (a b : Int) : intMul a b = a * b := by
  cases a <;> cases b <;>
    simp only [intMul, intNeg_eq, Int.ofNat_eq_coe, Int.negSucc_eq] <;>
    push_cast <;> ring

theorem intIsNeg_eq (a : Int) : intIsNeg a = decide (a < 0) := by
  cases a <;> simp only [intIsNeg] <;> rw [Bool.eq_iff_iff] <;>
    simp only [decide_eq_true_eq, Bool.false_eq_true, false_iff,
      Int.ofNat_eq_coe, Int.negSucc_eq, true_iff] <;> omega

theorem intIsZero_eq (a : Int) : intIsZero a = decide (a = 0) := by
  cases a with
  | ofNat m =>
    cases m with
    | zero => decide
    | succ k =>
      show false = decide (Int.ofNat (k+1) = 0)
      rw [Bool.eq_iff_iff]
      simp only [Bool.false_eq_true, false_iff, decide_eq_true_eq, Int.ofNat_eq_coe]
      omega
  | negSucc m =>
    show false = decide (Int.negSucc m = 0)
    rw [Bool.eq_iff_iff]
    simp only [Bool.false_eq_true, false_iff, decide_eq_true_eq, Int.negSucc_eq]
    omega

theorem intBle_eq (a b : Int) : intBle a b = decide (a ≤ b) := by
  cases a <;> cases b <;> simp only [intBle] <;> rw [Bool.eq_iff_iff] <;>
    simp only [Nat.ble_eq, decide_eq_true_eq, Bool.false_eq_true, false_iff,
      Int.ofNat_eq_coe, Int.negSucc_eq, true_iff] <;> omega

theorem intBlt_eq (a b : Int) : intBlt a b = decide (a < b) := by
  cases a <;> cases b <;> simp only [intBlt] <;> rw [Bool.eq_iff_iff] <;>
    simp only [Nat.blt_eq, decide_eq_true_eq, Bool.false_eq_true, false_iff,
      Int.ofNat_eq_coe, Int.negSucc_eq, true_iff] <;> omega

theorem intAbs_eq (a : Int) : intAbs a = a.natAbs := by
  cases a <;> rfl

theorem intToNat_eq (a : Int) : intToNat a = a.toNat := by
  cases a <;> rfl

theorem allRange_spec (f : Nat → Bool) (lo : Nat) :
    ∀ n, allRange f lo n = true → ∀ i, lo ≤ i → i < lo + n → f i = true := by
  intro n
  induction n with
  | zero => intro _ i _ h; omega
  | succ k ih =>
    intro h i hlo hik
    have h' : (f (lo + k) && allRange f lo k) = true := h
    rw [Bool.and_eq_true] at h'
    rcases Nat.lt_or_ge i (lo + k) with h2 | h2
    · exact ih h'.2 i hlo h2
    · have : i = lo + k := by omega
      subst this; exact h'.1

/-! Exhaustive kernel verification of all 65536 multiplication-table
entries, row by row (the quotient `j/255.0f` is evaluated once per row),
in four chunks so each chunk's kernel check stays within memory
bounds. -/

theorem mulRowsPart0 : allRange mulRowChk 0 64 = true := by decide!

theorem mulRowsPart1 : allRange mulRowChk 64 64 = true := by decide!

theorem mulRowsPart2 : allRange mulRowChk 128 64 = true := by decide!

theorem mulRowsPart3 : allRange mulRowChk 192 64 = true := by decide!

theorem mulRowChk_true : ∀ j, j < 256 → mulRowChk j = true := by
  intro j hj
  rcases Nat.lt_or_ge j 64 with h0 | h0
  · exact allRange_spec mulRowChk 0 64 mulRowsPart0 j (by omega) (by omega)
  rcases Nat.lt_or_ge j 128 with h1 | h1
  · exact allRange_spec mulRowChk 64 64 mulRowsPart1 j (by omega) (by omega)
  rcases Nat.lt_or_ge j 192 with h2 | h2
  · exact allRange_spec mulRowChk 128 64 mulRowsPart2 j (by omega) (by omega)
  exact allRange_spec mulRowChk 192 64 mulRowsPart3 j (by omega) (by omega)

/-- The single-precision computation `(Uint8)(i * (j / 255.0f))` of
`GfxInit` equals `⌊i*j/255⌋` on every pair of bytes. -/
theorem tableMulF_correct : ∀ i, i < 256 → ∀ j, j < 256 →
    tableMulF i j = some (Int.ofNat (i * j / 255)) := by
  intro i hi j hj
  have h := mulRowChk_true j hj
  unfold mulRowChk at h
  unfold tableMulF
  cases hdiv : F32.div (F32.ofInt (.ofNat j)) (F32.ofInt 255) with
  | nan => rw [hdiv] at h; simp at h
  | inf s => rw [hdiv] at h; simp at h
  | fin m e =>
    rw [hdiv] at h
    have h2 := allRange_spec _ 0 256 h i (by omega) (by omega)
    cases htm : (F32.mul (F32.ofInt (.ofNat i)) (F32.fin m e)).toIntTrunc with
    | none => rw [htm] at h2; simp at h2
    | some t =>
      rw [htm] at h2
      cases t with
      | ofNat n =>
        simp only [Option.casesOn] at h2
        have : n = i * j / 255 := Nat.eq_of_beq_eq_true h2
        rw [this]
      | negSucc n => simp at h2

theorem tableMul_correct : ∀ i, i < 256 → ∀ j, j < 256 → tableMul i j = i * j / 255 := by
  intro i hi j hj
  unfold tableMul
  rw [tableMulF_correct i hi j hj]
  rfl

/-- C2: after `GfxInit`'s table construction, for all byte values
`i, j ∈ [0,255]`: `tableAdd[i][j] = min(255, i+j)`,
`tableSub[i][j] = max(0, i-j)`, `tableMul[i][j] = ⌊i*j/255⌋`; hence the
`Color32` operators `+`, `-`, `*` saturate each channel (alpha included)
independently by these formulas. -/
theorem claim_C2_tables_saturate :
    (∀ i j : Nat, tableAdd i j = min 255 (i + j)) ∧
    (∀ i j : Nat, (tableSub i j : Int) = max 0 ((i : Int) - (j : Int))) ∧
    (∀ i, i < 256 → ∀ j, j < 256 → tableMul i j = i * j / 255) ∧
    (∀ l r : Color32,
      c32Add l r = ⟨min 255 (l.red + r.red), min 255 (l.green + r.green),
                    min 255 (l.blue + r.blue), min 255 (l.alpha + r.alpha)⟩) ∧
    (∀ l r : Color32,
      ((c32Sub l r).red : Int) = max 0 ((l.red : Int) - (r.red : Int)) ∧
      ((c32Sub l r).green : Int) = max 0 ((l.green : Int) - (r.green : Int)) ∧
      ((c32Sub l r).blue : Int) = max 0 ((l.blue : Int) - (r.blue : Int)) ∧
      ((c32Sub l r).alpha : Int) = max 0 ((l.alpha : Int) - (r.alpha : Int))) ∧
    (∀ l r : Color32, wfColor l → wfColor r →
      c32Mul l r = ⟨l.red * r.red / 255, l.green * r.green / 255,
                    l.blue * r.blue / 255, l.alpha * r.alpha / 255⟩) := by
  have tadd : ∀ i j : Nat, tableAdd i j = min 255 (i + j) := by
    intro i j; unfold tableAdd; split <;> omega
  have tsub : ∀ i j : Nat, (tableSub i j : Int) = max 0 ((i : Int) - (j : Int)) := by
    intro i j; unfold tableSub; split <;> [skip; skip] <;> push_cast <;> omega
  refine ⟨tadd, tsub, tableMul_correct, ?_, ?_, ?_⟩
  · intro l r
    unfold c32Add
    rw [Color32.mk.injEq]
    exact ⟨tadd _ _, tadd _ _, tadd _ _, tadd _ _⟩
  · intro l r
    exact ⟨tsub _ _, tsub _ _, tsub _ _, tsub _ _⟩
  · intro l r hl hr
    unfold c32Mul
    rw [Color32.mk.injEq]
    exact ⟨tableMul_correct _ hl.1 _ hr.1, tableMul_correct _ hl.2.1 _ hr.2.1,
           tableMul_correct _ hl.2.2.1 _ hr.2.2.1, tableMul_correct _ hl.2.2.2 _ hr.2.2.2⟩

theorem claim_C2_witness :
    tableMul 200 100 = 200 * 100 / 255 ∧
    c32Mul ⟨255, 128, 0, 255⟩ ⟨255, 255, 255, 0⟩ =
      ⟨255 * 255 / 255, 128 * 255 / 255, 0 * 255 / 255, 255 * 0 / 255⟩ :=
  ⟨claim_C2_tables_saturate.2.2.1 200 (by decide) 100 (by decide),
   claim_C2_tables_saturate.2.2.2.2.2 ⟨255, 128, 0, 255⟩ ⟨255, 255, 255, 0⟩
     (by unfold wfColor; decide) (by unfold wfColor; decide)⟩

theorem u8chanDiff_all : allRange u8chanDiffChk 1 254 = true := by decide!

/-- C4: the byte-to-normalized-float table is built as `255/(float)i`
(the reciprocal of the intended `i/255` mapping — the two differ at every
`i ∈ [1,254]`), and at `i = 0` the construction divides by zero (the
float result is `+inf`). -/
theorem claim_C4_fchan_reciprocal :
    u8chan_to_fchan 0 = F32.inf false ∧
    ∀ i, 1 ≤ i → i ≤ 254 → u8chan_to_fchan i ≠ intended_fchan i := by
  constructor
  · rfl
  · intro i h1 h2
    have h := allRange_spec u8chanDiffChk 1 254 u8chanDiff_all i h1 (by omega)
    unfold u8chanDiffChk at h
    simpa using h

theorem claim_C4_witness :
    u8chan_to_fchan 0 = F32.inf false ∧ u8chan_to_fchan 2 ≠ intended_fchan 2 :=
  ⟨claim_C4_fchan_reciprocal.1, claim_C4_fchan_reciprocal.2 2 (by omega) (by omega)⟩

/-- C5, counterexample: the `Grayscale` blender does not keep the source
alpha — for `src = (0,0,0,0)` the result's alpha is 255 (the constructor
default), not 0. -/
theorem claim_C5_counterexample :
    (grayscaleBlend ⟨1, 2, 3, 4⟩ ⟨0, 0, 0, 0⟩).alpha ≠ (Color32.mk 0 0 0 0).alpha := by
  decide

/-- C5, amended: the `Grayscale` blender replicates the luma of `src`
(weights `0.3f/0.59f/0.11f` on red/green/blue, single precision) into the
three color channels, sets alpha to 255 (the `Color32` constructor
default), and does not depend on `dst`. -/
theorem claim_C5_grayscale :
    ∀ dst dst' src : Color32,
      (grayscaleBlend dst src).red = grayLuma src ∧
      (grayscaleBlend dst src).green = grayLuma src ∧
      (grayscaleBlend dst src).blue = grayLuma src ∧
      (grayscaleBlend dst src).alpha = 255 ∧
      grayscaleBlend dst src = grayscaleBlend dst' src := by
  intro dst dst' src
  exact ⟨rfl, rfl, rfl, rfl, rfl⟩

/-- C9: the `ColorKey(key)` blender returns `dst` exactly when `src` and
`key` agree on red, green and blue (the `Color32` equality ignores
alpha), and returns `src` otherwise. -/
theorem claim_C9_colorkey :
    ∀ key dst src : Color32,
      (c32Eq src key = true ↔
        (src.red = key.red ∧ src.green = key.green ∧ src.blue = key.blue)) ∧
      (c32Eq src key = true → colorKeyBlend key dst src = dst) ∧
      (c32Eq src key = false → colorKeyBlend key dst src = src) := by
  intro key dst src
  refine ⟨?_, ?_, ?_⟩
  · simp [c32Eq, Bool.and_eq_true, beq_iff_eq, and_assoc]
  · intro h; simp [colorKeyBlend, h]
  · intro h; simp [colorKeyBlend, h]

theorem claim_C9_witness :
    colorKeyBlend ⟨9, 9, 9, 0⟩ ⟨1, 2, 3, 4⟩ ⟨9, 9, 9, 77⟩ = ⟨1, 2, 3, 4⟩ ∧
    colorKeyBlend ⟨9, 9, 9, 0⟩ ⟨1, 2, 3, 4⟩ ⟨8, 9, 9, 0⟩ = ⟨8, 9, 9, 0⟩ :=
  ⟨(claim_C9_colorkey ⟨9, 9, 9, 0⟩ ⟨1, 2, 3, 4⟩ ⟨9, 9, 9, 77⟩).2.1 (by decide),
   (claim_C9_colorkey ⟨9, 9, 9, 0⟩ ⟨1, 2, 3, 4⟩ ⟨8, 9, 9, 0⟩).2.2 (by decide)⟩

theorem int32ToBytes_length (n : Int) : (int32ToBytes n).length = 4 := rfl

theorem int32_roundtrip (n : Int) (h0 : 0 ≤ n) (h1 : n < 2147483648) (X : List Nat) :
    readI32 (int32ToBytes n ++ X) = n := by
  simp only [int32ToBytes, readI32, bytesToInt32, List.cons_append, List.nil_append,
    List.getD_cons_zero, List.getD_cons_succ]
  split <;> omega

theorem loadPixelAt_pixelsToBytes :
    ∀ (l : List Color32) (k : Nat), k < l.length →
      loadPixelAt (pixelsToBytes l) k = l.getD k ⟨0, 0, 0, 0⟩ := by
  intro l
  induction l with
  | nil => intro k h; simp at h
  | cons c rest ih =>
    intro k hk
    cases k with
    | zero =>
      show loadPixelAt (pixToBytes c ++ pixelsToBytes rest) 0 = c
      unfold loadPixelAt pixToBytes
      simp only [List.cons_append, List.nil_append]
      norm_num [List.getD_cons_zero, List.getD_cons_succ]
    | succ k' =>
      have h' : k' < rest.length := by simp at hk; omega
      have hrec := ih k' h'
      show loadPixelAt (pixToBytes c ++ pixelsToBytes rest) (k' + 1) = rest.getD k' ⟨0, 0, 0, 0⟩
      unfold loadPixelAt at hrec
      unfold loadPixelAt pixToBytes
      simp only [List.cons_append, List.nil_append]
      rw [show 4 * (k' + 1) + 2 = (4 * k' + 2) + 4 by omega,
          show 4 * (k' + 1) + 1 = (4 * k' + 1) + 4 by omega,
          show 4 * (k' + 1) + 3 = (4 * k' + 3) + 4 by omega,
          show 4 * (k' + 1) = (4 * k') + 4 by omega]
      simp only [List.getD_cons_succ]
      exact hrec

theorem load_pixels_eq (l : List Color32) :
    (List.range l.length).map (loadPixelAt (pixelsToBytes l)) = l := by
  apply List.ext_getElem
  · simp
  · intro i h1 h2
    simp only [List.getElem_map, List.getElem_range]
    rw [loadPixelAt_pixelsToBytes l i h2]
    exact List.getD_eq_getElem l _ h2

/-- C6: for every freshly created image, `Save` followed by `Load` (on a
second image) yields the same width, the same height, and
pixel-for-pixel identical buffer contents. -/
theorem claim_C6_save_load_roundtrip :
    ∀ img : Image, wfImage img → (saveBytes img).bind imgLoad = some img := by
  intro img
  obtain ⟨w, h, p⟩ := img
  intro hwf
  obtain ⟨h1, h2, h3, h4, l, hpix, hlen, hwfc⟩ := hwf
  simp only at h1 h2 h3 h4 hpix hlen
  subst hpix
  have hwh : w * h ≠ 0 := by
    intro hc
    rcases mul_eq_zero.mp hc with hc | hc <;> omega
  unfold saveBytes
  simp only
  rw [if_neg hwh, if_pos hlen]
  show imgLoad (int32ToBytes 4 ++ (int32ToBytes w ++ (int32ToBytes h ++ pixelsToBytes l))) =
    some ⟨w, h, some l⟩
  have hd4 : (int32ToBytes 4 ++ (int32ToBytes w ++ (int32ToBytes h ++ pixelsToBytes l))).drop 4 =
      int32ToBytes w ++ (int32ToBytes h ++ pixelsToBytes l) := by
    rw [show (4 : Nat) = (int32ToBytes 4).length from rfl, List.drop_left]
  have hd8 : (int32ToBytes 4 ++ (int32ToBytes w ++ (int32ToBytes h ++ pixelsToBytes l))).drop 8 =
      int32ToBytes h ++ pixelsToBytes l := by
    rw [show (8 : Nat) = 4 + 4 by rfl, ← List.drop_drop, hd4,
        show (4 : Nat) = (int32ToBytes w).length from (int32ToBytes_length w).symm, List.drop_left]
  have hd12 : (int32ToBytes 4 ++ (int32ToBytes w ++ (int32ToBytes h ++ pixelsToBytes l))).drop 12 =
      pixelsToBytes l := by
    rw [show (12 : Nat) = 8 + 4 by rfl, ← List.drop_drop, hd8,
        show (4 : Nat) = (int32ToBytes h).length from (int32ToBytes_length h).symm, List.drop_left]
  unfold imgLoad
  rw [if_neg (by
    simp only [List.length_append, int32ToBytes_length]
    omega)]
  rw [hd4, hd8, hd12]
  rw [int32_roundtrip 4 (by omega) (by omega),
      int32_roundtrip w (by omega) (by omega),
      int32_roundtrip h (by omega) (by omega)]
  rw [if_pos rfl, if_pos (by exact ⟨by omega, by omega, by omega, by omega⟩)]
  rw [← hlen, load_pixels_eq]

/-- C1, failing evaluation: saving a 2x1 image and opening it with
`Image::Stream::Load` yields a stream whose `width` is 4 (the type-size
tag), whose `height` is 2 (the saved width) and whose `dataStart` is 8,
while the saved image is 2x1 and its first pixel record starts at byte
offset 12 (after the three 4-byte header fields) — `Stream::Load` never
reads the type-size tag. -/
theorem claim_C1_stream_header_mismatch :
    (saveBytes c1Img).bind streamLoad = some ⟨4, 2, 8⟩ ∧
    (saveBytes c1Img).map (fun bs => bs.drop 12) =
      some (pixelsToBytes [⟨10, 20, 30, 40⟩, ⟨50, 60, 70, 80⟩]) ∧
    ((4 : Int) ≠ 2 ∧ (2 : Int) ≠ 1 ∧ (8 : Int) ≠ 12) := by
  decide

theorem claim_C6_witness : (saveBytes c1Img).bind imgLoad = some c1Img :=
  claim_C6_save_load_roundtrip c1Img
    ⟨by decide, by decide, by decide, by decide,
     [⟨10, 20, 30, 40⟩, ⟨50, 60, 70, 80⟩], rfl, by decide,
     by
       intro c hc
       simp only [List.mem_cons, List.not_mem_nil, or_false] at hc
       rcases hc with rfl | rfl <;> (unfold wfColor; decide)⟩

theorem blitRows_zero (src : Image) (blend : Color32 → Color32 → Color32)
    (sample : Image → F32 → F32 → Option Color32) (du dv u1 : F32)
    (W : Int) (maxx : Nat) (base : Int) (v : F32) (img : Image) :
    blitRows src blend sample du dv u1 W maxx 0 base v img = some img := rfl

theorem blitRows_maxx_zero (src : Image) (blend : Color32 → Color32 → Color32)
    (sample : Image → F32 → F32 → Option Color32) (du dv u1 : F32)
    (W : Int) : ∀ (n : Nat) (base : Int) (v : F32) (img : Image),
    blitRows src blend sample du dv u1 W 0 n base v img = some img := by
  intro n
  induction n with
  | zero => intro base v img; rfl
  | succ k ih =>
    intro base v img
    rw [blitRows, show blitCols src blend sample du v 0 base u1 img = some img from rfl]
    dsimp only
    exact ih (intAdd base W) (F32.add v dv) img

theorem outMAXX_low (W a b : Int) (ha : a ≤ 0) (hb : b ≤ 0) :
    clipMax W (normHi a b) - normLo a b ≤ 0 := by
  unfold clipMax normHi normLo
  split_ifs <;> omega

theorem outMAXX_high (W a b : Int) (ha : W ≤ a) (hb : W ≤ b) :
    clipMax W (normHi a b) - normLo a b ≤ 0 := by
  unfold clipMax normHi normLo
  split_ifs <;> omega

/-- C7: for every good source and destination image, `Image::Blit` with
a destination rectangle lying entirely outside the destination canvas
bounds writes no pixel: the destination is returned unchanged and no
error message is set — the call is a no-op, not an error (the writable
area collapses before the scanline loops run). -/
theorem claim_C7_outside_rect_noop (pDst pSrc : Image)
    (pBlend : Color32 → Color32 → Color32)
    (pSample : Image → F32 → F32 → Option Color32)
    (pDx1 pDy1 pDx2 pDy2 pSx1 pSy1 pSx2 pSy2 : Int)
    (hs : pSrc.IsBad = false) (hd : pDst.IsBad = false)
    (hout : (pDx1 ≤ 0 ∧ pDx2 ≤ 0) ∨ (pDst.width ≤ pDx1 ∧ pDst.width ≤ pDx2) ∨
            (pDy1 ≤ 0 ∧ pDy2 ≤ 0) ∨ (pDst.height ≤ pDy1 ∧ pDst.height ≤ pDy2)) :
    blitImage pDst pDx1 pDy1 pDx2 pDy2 pSrc pBlend pSample pSx1 pSy1 pSx2 pSy2 =
      some (none, pDst) := by
  unfold blitImage
  rw [hs, hd]
  rw [if_neg (by decide)]
  by_cases hc : clipMax pDst.width (normHi pDx1 pDx2) - normLo pDx1 pDx2 < 0 ∨
      clipMax pDst.height (normHi pDy1 pDy2) - normLo pDy1 pDy2 < 0
  · rw [if_pos hc]
  · rw [if_neg hc]
    push_neg at hc
    obtain ⟨hx, hy⟩ := hc
    rcases hout with ⟨h1, h2⟩ | ⟨h1, h2⟩ | ⟨h1, h2⟩ | ⟨h1, h2⟩
    · have hz : clipMax pDst.width (normHi pDx1 pDx2) - normLo pDx1 pDx2 = 0 := by
        have := outMAXX_low pDst.width pDx1 pDx2 h1 h2; omega
      rw [hz]
      rw [show ((0 : Int)).toNat = 0 from rfl]
      rw [blitRows_maxx_zero]
    · have hz : clipMax pDst.width (normHi pDx1 pDx2) - normLo pDx1 pDx2 = 0 := by
        have := outMAXX_high pDst.width pDx1 pDx2 h1 h2; omega
      rw [hz]
      rw [show ((0 : Int)).toNat = 0 from rfl]
      rw [blitRows_maxx_zero]
    · have hz : clipMax pDst.height (normHi pDy1 pDy2) - normLo pDy1 pDy2 = 0 := by
        have := outMAXX_low pDst.height pDy1 pDy2 h1 h2; omega
      rw [hz]
      rw [show ((0 : Int)).toNat = 0 from rfl]
      rw [blitRows_zero]
    · have hz : clipMax pDst.height (normHi pDy1 pDy2) - normLo pDy1 pDy2 = 0 := by
        have := outMAXX_high pDst.height pDy1 pDy2 h1 h2; omega
      rw [hz]
      rw [show ((0 : Int)).toNat = 0 from rfl]
      rw [blitRows_zero]

theorem claim_C7_witness :
    blitImage c1Img 5 0 7 1 c1Img assignBlend sampleNearest 0 0 65535 65535 =
      some (none, c1Img) :=
  claim_C7_outside_rect_noop c1Img c1Img assignBlend sampleNearest 5 0 7 1 0 0 65535 65535
    rfl rfl (Or.inr (Or.inl ⟨by decide, by decide⟩))

/-- C10: for every call of the in-memory `Image::Blit` in which the
source image or the destination image is bad (null pixel buffer), the
call returns immediately after setting the error message
"Blit: Bad source/destination": the destination is untouched and the
sampler and blender are never reached (the early return precedes the
scanline loops). -/
theorem claim_C10_bad_image_error (pDst : Image) (pDx1 pDy1 pDx2 pDy2 : Int)
    (pSrc : Image) (pBlend : Color32 → Color32 → Color32)
    (pSample : Image → F32 → F32 → Option Color32)
    (pSx1 pSy1 pSx2 pSy2 : Int)
    (h : pSrc.IsBad = true ∨ pDst.IsBad = true) :
    blitImage pDst pDx1 pDy1 pDx2 pDy2 pSrc pBlend pSample pSx1 pSy1 pSx2 pSy2 =
      some (some "Blit: Bad source/destination", pDst) := by
  unfold blitImage
  rcases h with h | h <;> rw [if_pos (by rw [h]; simp)]

theorem claim_C10_witness :
    blitImage ⟨0, 0, none⟩ 0 0 1 1 c1Img assignBlend sampleNearest 0 0 65535 65535 =
      some (some "Blit: Bad source/destination", ⟨0, 0, none⟩) :=
  claim_C10_bad_image_error ⟨0, 0, none⟩ 0 0 1 1 c1Img assignBlend sampleNearest
    0 0 65535 65535 (Or.inr rfl)

/-- C3, failing evaluation: in the claimed scenario — 2x1 source
`[A,B]`, reversed destination x-range `Dx1=2, Dx2=0` onto a good 4x1
destination, `Assign` blender, `Nearest` sampler, default source rect —
the blit does not write `[B,A]`: with a 1-pixel-high source the `v`
coordinate is `0/(height-1) = 0/0 = nan` (second conjunct), and the
float→`Sint32` cast of `nan` inside the `Nearest` sampler is undefined
behaviour, so the modelled run is `none` (first conjunct).  Moreover
the mirrored `u` start is `sx2/(width-1) = 2`, so even at a
well-defined `v` the sampler would read column 2 of the 2-column
source — out of bounds (third conjunct). -/
theorem claim_C3_reversed_blit_undefined :
    blitImage c3Dst 2 0 0 1 c3Src assignBlend sampleNearest 0 0 65535 65535 = none ∧
    F32.div (F32.ofInt 0) (F32.ofInt (intSub c3Src.height 1)) = F32.nan ∧
    sampleNearest c3Src (F32.div (F32.ofInt 2) (F32.ofInt (intSub c3Src.width 1)))
      (F32.ofInt 0) = none := by
  decide

/-- C8, amended: the streamed `Image::Blit` returns `false` only when
the file open fails — every defined run that reaches a result with an
openable file returns `true` (first conjunct, over all inputs).  A read
failure partway through the row loop is not escalated, but later
destination rows are NOT left unchanged: every later seek/read is a
silent no-op (`failbit` persists) and the row loop still writes those
rows from the stale `spix` buffer.  The second conjunct shows the
concrete 1x2 run over a one-row file: row 0 is transferred, row 1's
read fails, yet row 1 is overwritten with row 0's stale pixel and the
call returns `true`. -/
theorem claim_C8_stream_failure :
    (∀ (pDst : Image) (pDx1 pDy1 pDx2 pDy2 srcW srcH dataStart : Int)
       (srcFile : Option (List Nat)) (pBlend : Color32 → Color32 → Color32)
       (pSx1 pSy1 pSx2 pSy2 : Int) (b : Bool) (res : Image),
       blitStream pDst pDx1 pDy1 pDx2 pDy2 srcW srcH dataStart srcFile pBlend
         pSx1 pSy1 pSx2 pSy2 = some (b, res) → b = false → srcFile = none) ∧
    blitStream ⟨1, 2, some [⟨1, 2, 3, 4⟩, ⟨5, 6, 7, 8⟩]⟩ 0 0 1 2 1 2 0
      (some [9, 10, 11, 12]) assignBlend 0 0 65535 65535 =
      some (true, ⟨1, 2, some [⟨11, 10, 9, 12⟩, ⟨11, 10, 9, 12⟩]⟩) := by
  constructor
  · intro pDst pDx1 pDy1 pDx2 pDy2 srcW srcH dataStart srcFile pBlend
      pSx1 pSy1 pSx2 pSy2 b res h hb
    subst hb
    simp only [blitStream] at h
    repeat' split at h
    all_goals first
      | assumption
      | rfl
      | simp at h
  · decide

/-- C8, counterexample to the original claim: after the row-1 read
fails (the file holds only one 4-byte pixel), destination row 1 —
originally `(5,6,7,8)` — is still overwritten, with the stale row-0
pixel `(11,10,9,12)`, so "later destination rows are left unchanged"
is false. -/
theorem claim_C8_counterexample :
    blitStream ⟨1, 2, some [⟨1, 2, 3, 4⟩, ⟨5, 6, 7, 8⟩]⟩ 0 0 1 2 1 2 0
      (some [9, 10, 11, 12]) assignBlend 0 0 65535 65535 =
      some (true, ⟨1, 2, some [⟨11, 10, 9, 12⟩, ⟨11, 10, 9, 12⟩]⟩) ∧
    (⟨11, 10, 9, 12⟩ : Color32) ≠ ⟨5, 6, 7, 8⟩ := by
  decide

theorem claim_C8_witness :
    blitStream ⟨1, 2, some [⟨1, 2, 3, 4⟩, ⟨5, 6, 7, 8⟩]⟩ 0 0 1 2 1 2 0 none
      assignBlend 0 0 65535 65535 =
      some (false, ⟨1, 2, some [⟨1, 2, 3, 4⟩, ⟨5, 6, 7, 8⟩]⟩) ∧
    (none : Option (List Nat)) = none :=
  ⟨by decide,
   claim_C8_stream_failure.1 ⟨1, 2, some [⟨1, 2, 3, 4⟩, ⟨5, 6, 7, 8⟩]⟩
     0 0 1 2 1 2 0 none assignBlend 0 0 65535 65535 false
     ⟨1, 2, some [⟨1, 2, 3, 4⟩, ⟨5, 6, 7, 8⟩]⟩ (by decide) rfl⟩
